import Mathlib

/-!
Verification of `hapmap2impute.py`, a script converting genotype files from
the HapMap format to the IMPUTE format.

Shallow embedding conventions:
* A file is modelled as the list of strings its successive `readline()`
  calls return: every element carries its trailing newline, except possibly
  the last one when the file does not end with a newline; the empty-string
  EOF sentinel is not part of the list.  An unset (empty) file path is
  modelled by the empty list, exactly the effect it has in the script
  (the loaders return the empty list / empty dict for it).
* Python string primitives are embedded at the `List Char` level:
  `line[:-1]` is `pyDropLast`, `str.rstrip()` is `pyRstrip`,
  `str.split()` is `pySplit`, `str.split("/")` is `pySplitSlash`,
  the substring test `a in b` is `pyIn`.
* The Python dict `dSnpId2NewCoord` is an association list built by
  appending; the script aborts on duplicate keys, so keys stay unique.
  `has_key` is `dictHasKey`, subscripting is `dictGet`.
* Output written to the gzipped stream is collected as a `List String`
  of the written lines (one element per `outH.write("%s\n" % txt)` call).
* `sys.exit(1)` during loading is modelled with `Except String`; the
  script opens the output file only after all three loaders have run,
  so an `Except.error` result stands for a run that terminates before
  the output file is created.
* The substitution `inPattern.replace("CHR", "chr%i" % chrNb)` followed by
  `gzip.open` is abstracted into a map `inputs : Nat → List String` from a
  chromosome number to the content of its input file.
-/

/-- Python `line[:-1]`: the string with its final character removed. -/
def pyDropLast (s : String) : String := String.mk s.data.dropLast

/-- Python `s.rstrip()`: the string with all trailing whitespace removed. -/
def pyRstrip (s : String) : String :=
  String.mk ((s.data.reverse.dropWhile Char.isWhitespace).reverse)

/-- Python `s.split()` with no argument: split on runs of whitespace,
discarding empty pieces. -/
def pySplit (s : String) : List String :=
  ((s.data.splitOnP Char.isWhitespace).filter (fun l => !l.isEmpty)).map String.mk

/-- Python `s.split("/")`: split on each slash, keeping empty pieces. -/
def pySplitSlash (s : String) : List String :=
  (s.data.splitOnP (fun c => c == '/')).map String.mk

/-- Whether `needle` is a leading run of `hay` (helper for the Python
substring test). -/
def startsList : List Char → List Char → Bool
  | [], _ => true
  | _ :: _, [] => false
  | a :: as, b :: bs => a == b && startsList as bs

/-- Whether `needle` occurs contiguously inside `hay` (helper for the Python
substring test). -/
def containsSub : List Char → List Char → Bool
  | needle, [] => startsList needle []
  | needle, c :: rest => startsList needle (c :: rest) || containsSub needle rest

/-- Python substring test `sub in s`. -/
def pyIn (sub s : String) : Bool := containsSub sub.data s.data

/-- `loadFileWithListOfSnpsToIgnore` (lines 99-119 of the script): read the
SNP-exclusion file line by line, store `line[:-1]`, silently collapsing
duplicates; an unset path yields the empty list. -/
def loadFileWithListOfSnpsToIgnore (fileLines : List String) : List String :=
  fileLines.foldl
    (fun acc line => if pyDropLast line ∈ acc then acc else acc ++ [pyDropLast line])
    []

/-- `loadFileWithListOfIndsToKeep` (lines 152-172 of the script): identical
shape to the SNP-exclusion loader, for the individual-inclusion file. -/
def loadFileWithListOfIndsToKeep (fileLines : List String) : List String :=
  fileLines.foldl
    (fun acc line => if pyDropLast line ∈ acc then acc else acc ++ [pyDropLast line])
    []

/-- Python `d.has_key(k)` on the association-list model of the dict. -/
def dictHasKey (d : List (String × String)) (k : String) : Bool :=
  d.any (fun p => p.1 == k)

/-- Python `d[k]` on the association-list model of the dict. -/
def dictGet (d : List (String × String)) (k : String) : String :=
  (((d.find? (fun p => p.1 == k)).map Prod.snd).getD "")

/-- The `while` loop of `getNewSnpCoordinates` (lines 132-143): token 3 of
each line is the marker id, token 2 the new coordinate; lines whose marker
is in the exclusion list are skipped, a repeated marker aborts the run with
the redundant-SNP error, otherwise the pair is added to the dict. -/
def getNewSnpCoordinatesLoop (lSnpsToIgnore : List String) :
    List String → List (String × String) → Except String (List (String × String))
  | [], d => Except.ok d
  | line :: rest, d =>
    let tok := pySplit (pyDropLast line)
    if tok.getD 3 "" ∈ lSnpsToIgnore then
      getNewSnpCoordinatesLoop lSnpsToIgnore rest d
    else if dictHasKey d (tok.getD 3 "") then
      Except.error ("ERROR: SNP " ++ tok.getD 3 "" ++ " is redundant")
    else
      getNewSnpCoordinatesLoop lSnpsToIgnore rest (d ++ [(tok.getD 3 "", tok.getD 2 "")])

/-- `getNewSnpCoordinates` (lines 122-149 of the script): build the
marker-to-new-coordinate dict from the BED file contents. -/
def getNewSnpCoordinates (coordLines : List String) (lSnpsToIgnore : List String) :
    Except String (List (String × String)) :=
  getNewSnpCoordinatesLoop lSnpsToIgnore coordLines []

/-- Token 0 of a data line: the marker identifier (line 204 of the script). -/
def markerOf (line : String) : String := (pySplit (pyDropLast line)).getD 0 ""

/-- The genotype-call if-chain of the converter (lines 219-226): the text
appended to the row for one retained column. -/
def encodeCall (a1 a2 call : String) : String :=
  if call = a1 ++ a1 then " 1 0 0"
  else if pyIn a1 call && pyIn a2 call then " 0 1 0"
  else if call = a2 ++ a2 then " 0 0 1"
  else " 0 0 0"

/-- The body of the converter's data loop (lines 200-227): one input line
becomes `none` (row skipped, marker excluded) or `some` output line. -/
def convertDataRow (chrNb : Nat) (lSnpsToIgnore : List String)
    (dSnpId2NewCoord : List (String × String)) (lColIdxToKeep : List Nat)
    (line : String) : Option String :=
  let lToks := pySplit (pyDropLast line)
  let snpId := lToks.getD 0 ""
  if snpId ∈ lSnpsToIgnore then none
  else
    let coord :=
      if dictHasKey dSnpId2NewCoord snpId then dictGet dSnpId2NewCoord snpId
      else lToks.getD 3 ""
    let alleles := pySplitSlash (lToks.getD 1 "")
    let a1 := alleles.getD 0 ""
    let a2 := alleles.getD 1 ""
    some ((List.range' 11 (lToks.length - 11)).foldl
      (fun t i => if i ∈ lColIdxToKeep then t ++ encodeCall a1 a2 (lToks.getD i "") else t)
      ("chr" ++ toString chrNb ++ " " ++ snpId ++ " " ++ coord ++ " " ++ a1 ++ " " ++ a2))

/-- The header scan of the converter (lines 185-191): the column indices
(from 11 on) whose individual identifier lies in the inclusion list. -/
def keptColIdx (lToks : List String) (lIndsToKeep : List String) : List Nat :=
  (List.range' 11 (lToks.length - 11)).filter
    (fun i => decide (lToks.getD i "" ∈ lIndsToKeep))

/-- The header text written for the first chromosome (lines 192-197). -/
def headerTxt (lToks : List String) (lColIdxToKeep : List Nat) : String :=
  (List.range' 11 (lToks.length - 11)).foldl
    (fun txt i => if i ∈ lColIdxToKeep then txt ++ " " ++ lToks.getD i "" else txt)
    "chr id coord a1 a2"

/-- `convertHapMapToImpute` (lines 175-229 of the script): the lines written
to the output stream for one chromosome file. -/
def convertHapMapToImpute (chrNb : Nat) (lSnpsToIgnore : List String)
    (dSnpId2NewCoord : List (String × String)) (lIndsToKeep : List String)
    (fileLines : List String) (isFirstFile : Bool) : List String :=
  let lToks := pySplit (pyRstrip (fileLines.headD ""))
  let lColIdxToKeep := keptColIdx lToks lIndsToKeep
  (if isFirstFile then [headerTxt lToks lColIdxToKeep] else []) ++
    fileLines.tail.filterMap (convertDataRow chrNb lSnpsToIgnore dSnpId2NewCoord lColIdxToKeep)

/-- The chromosome loop of `main` (lines 247-251): convert each requested
chromosome in order, the first one with the header flag set. -/
def mainLoop (inputs : Nat → List String) (lSnpsToIgnore : List String)
    (dSnpId2NewCoord : List (String × String)) (lIndsToKeep : List String) :
    List Nat → Bool → List String
  | [], _ => []
  | chrNb :: rest, isFirstFile =>
    convertHapMapToImpute chrNb lSnpsToIgnore dSnpId2NewCoord lIndsToKeep
        (inputs chrNb) isFirstFile ++
      mainLoop inputs lSnpsToIgnore dSnpId2NewCoord lIndsToKeep rest false

/-- `main` (lines 232-252 of the script): run the three loaders, then the
per-chromosome conversion; a loader error aborts before the output file is
opened, so the error carries no output lines. -/
def mainLines (inputs : Nat → List String) (lChrs : List Nat)
    (snpIgnoreLines coordLines indsLines : List String) :
    Except String (List String) :=
  let lSnpsToIgnore := loadFileWithListOfSnpsToIgnore snpIgnoreLines
  match getNewSnpCoordinates coordLines lSnpsToIgnore with
  | Except.error e => Except.error e
  | Except.ok dSnpId2NewCoord =>
    Except.ok (mainLoop inputs lSnpsToIgnore dSnpId2NewCoord
      (loadFileWithListOfIndsToKeep indsLines) lChrs true)

/-- A line whose first four characters are those of the fixed header prefix
`chr id coord a1 a2`; data lines start with `chr<digit>` instead. -/
def isHeaderLine (s : String) : Bool := s.data.take 4 == ['c', 'h', 'r', ' ']

/-- Append every word of `ws` to `base`, each preceded by a single space
(specification-side description of the header layout). -/
def appendEachWithSpace (base : String) (ws : List String) : String :=
  ws.foldl (fun t w => t ++ " " ++ w) base

/-- The marker identifiers (token 3) of the coordinate-override lines whose
marker is not excluded: the keys the dict-building loop actually inserts. -/
def bedKeys (lSnpsToIgnore : List String) (coordLines : List String) : List String :=
  (coordLines.map (fun l => (pySplit (pyDropLast l)).getD 3 "")).filter
    (fun k => decide (k ∉ lSnpsToIgnore))

/-- Whether an `Except` result is a success. -/
def isOkE {α : Type} : Except String α → Bool
  | Except.ok _ => true
  | Except.error _ => false

/-- The part of an output data row after the coordinate column: space,
first allele, space, second allele, then the dosage triples of the retained
columns in order (used to state where the coordinate sits in a row). -/
def rowSuffix (lColIdxToKeep : List Nat) (lToks : List String) : String :=
  let alleles := pySplitSlash (lToks.getD 1 "")
  let a1 := alleles.getD 0 ""
  let a2 := alleles.getD 1 ""
  " " ++ a1 ++ " " ++ a2 ++
    (List.range' 11 (lToks.length - 11)).foldl
      (fun t i => t ++ (if i ∈ lColIdxToKeep then encodeCall a1 a2 (lToks.getD i "") else ""))
      ""

/-! ### Helper lemmas about the dedup fold shared by the two list loaders -/

theorem dedupFold_mono (l : List String) :
    ∀ (acc : List String) (a : String), a ∈ acc →
      a ∈ l.foldl
        (fun acc line => if pyDropLast line ∈ acc then acc else acc ++ [pyDropLast line])
        acc := by
  induction l with
  | nil => intro acc a ha; simpa using ha
  | cons x xs ih =>
    intro acc a ha
    simp only [List.foldl_cons]
    apply ih
    by_cases h : pyDropLast x ∈ acc
    · simpa [h] using ha
    · simp only [h, if_false]
      exact List.mem_append_left _ ha

theorem dedupFold_mem_dropLast (l : List String) :
    ∀ (acc : List String) (x : String), x ∈ l →
      pyDropLast x ∈ l.foldl
        (fun acc line => if pyDropLast line ∈ acc then acc else acc ++ [pyDropLast line])
        acc := by
  induction l with
  | nil => intro acc x hx; simp at hx
  | cons y ys ih =>
    intro acc x hx
    simp only [List.foldl_cons]
    rcases List.mem_cons.mp hx with h | h
    · subst h
      apply dedupFold_mono
      by_cases hy : pyDropLast x ∈ acc
      · simp only [hy, if_true]
      · simp only [hy, if_false]
        exact List.mem_append_right _ (List.mem_singleton.mpr rfl)
    · exact ih _ x h

theorem dedupFold_mem_iff (l : List String) :
    ∀ (acc : List String) (s : String),
      (s ∈ l.foldl
        (fun acc line => if pyDropLast line ∈ acc then acc else acc ++ [pyDropLast line])
        acc) ↔ s ∈ acc ∨ ∃ x, x ∈ l ∧ s = pyDropLast x := by
  induction l with
  | nil => intro acc s; simp
  | cons y ys ih =>
    intro acc s
    simp only [List.foldl_cons]
    rw [ih]
    have hstep : (s ∈ if pyDropLast y ∈ acc then acc else acc ++ [pyDropLast y]) ↔
        s ∈ acc ∨ s = pyDropLast y := by
      by_cases hy : pyDropLast y ∈ acc
      · simp only [hy, if_true]
        constructor
        · exact Or.inl
        · rintro (h | h)
          · exact h
          · rw [h]; exact hy
      · simp [hy]
    rw [hstep]
    constructor
    · rintro ((h | h) | ⟨x, hx, hs⟩)
      · exact Or.inl h
      · exact Or.inr ⟨y, List.mem_cons_self y ys, h⟩
      · exact Or.inr ⟨x, List.mem_cons_of_mem y hx, hs⟩
    · rintro (h | ⟨x, hx, hs⟩)
      · exact Or.inl (Or.inl h)
      · rcases List.mem_cons.mp hx with h2 | h2
        · subst h2; exact Or.inl (Or.inr hs)
        · exact Or.inr ⟨x, h2, hs⟩

theorem dedupFold_skip (ls : List String) (acc : List String) (x : String)
    (hx : pyDropLast x ∈ acc) :
    (x :: ls).foldl
        (fun acc line => if pyDropLast line ∈ acc then acc else acc ++ [pyDropLast line])
        acc =
      ls.foldl
        (fun acc line => if pyDropLast line ∈ acc then acc else acc ++ [pyDropLast line])
        acc := by
  simp only [List.foldl_cons, hx, if_true]

theorem pyDropLast_ne_self (x : String) (hx : ¬ x = "") : ¬ pyDropLast x = x := by
  intro h
  have hdata : x.data.dropLast = x.data := congrArg String.data h
  have hne : x.data ≠ [] := fun hd => hx (String.ext_iff.mpr (by simp [hd]))
  have hlen : x.data.dropLast.length = x.data.length - 1 := List.length_dropLast x.data
  have hpos : 0 < x.data.length := List.length_pos.mpr hne
  rw [hdata] at hlen
  omega

/-! ### Claim theorems: loaders (C8, C9) and encoding (C5, C10), C1 evaluation -/

/-- C1: the claim says that with no individual-inclusion file every
individual column of the header is retained.  The code does the opposite:
an empty inclusion list retains no column at all.  This theorem evaluates
the code at the failing input: a header carrying individuals IND1 and IND2
with an unset inclusion path yields a header without any identifier and a
data row without any dosage triple. -/
theorem c1_empty_inclusion_keeps_none :
    mainLines
        (fun _ => ["h0 h1 h2 h3 h4 h5 h6 h7 h8 h9 h10 IND1 IND2\n",
          "rs1 A/G x 1000 t4 t5 t6 t7 t8 t9 t10 AA AG\n"]) [1] [] [] [] =
      Except.ok ["chr id coord a1 a2", "chr1 rs1 1000 A G"] ∧
    keptColIdx (pySplit (pyRstrip "h0 h1 h2 h3 h4 h5 h6 h7 h8 h9 h10 IND1 IND2\n"))
        (loadFileWithListOfIndsToKeep []) = [] :=
  ⟨rfl, rfl⟩

/-- C8: loading an exclusion-list or inclusion-list file is idempotent under
duplicated lines: inserting a line that already occurs earlier leaves the
loaded list unchanged (duplicates collapse silently, no error). -/
theorem c8_load_dedup_idempotent (ls₁ ls₂ : List String) (x : String) (hx : x ∈ ls₁) :
    loadFileWithListOfSnpsToIgnore (ls₁ ++ x :: ls₂) =
        loadFileWithListOfSnpsToIgnore (ls₁ ++ ls₂) ∧
      loadFileWithListOfIndsToKeep (ls₁ ++ x :: ls₂) =
        loadFileWithListOfIndsToKeep (ls₁ ++ ls₂) := by
  constructor
  · unfold loadFileWithListOfSnpsToIgnore
    rw [List.foldl_append, List.foldl_append]
    exact dedupFold_skip ls₂ _ x (dedupFold_mem_dropLast ls₁ [] x hx)
  · unfold loadFileWithListOfIndsToKeep
    rw [List.foldl_append, List.foldl_append]
    exact dedupFold_skip ls₂ _ x (dedupFold_mem_dropLast ls₁ [] x hx)

theorem c8_witness :
    ("rs1\n" ∈ ["rs1\n"]) ∧
      loadFileWithListOfSnpsToIgnore (["rs1\n"] ++ "rs1\n" :: ["rs2\n"]) =
        loadFileWithListOfSnpsToIgnore (["rs1\n"] ++ ["rs2\n"]) ∧
      loadFileWithListOfIndsToKeep (["rs1\n"] ++ "rs1\n" :: ["rs2\n"]) =
        loadFileWithListOfIndsToKeep (["rs1\n"] ++ ["rs2\n"]) :=
  ⟨by decide,
   (c8_load_dedup_idempotent ["rs1\n"] ["rs2\n"] "rs1\n" (by decide)).1,
   (c8_load_dedup_idempotent ["rs1\n"] ["rs2\n"] "rs1\n" (by decide)).2⟩

/-- C9: both list loaders store, for every line read, exactly the line with
its final character removed; a final line without a trailing newline is
therefore stored with its genuine last character missing, and the stored
identifier differs from the intended (nonempty) token. -/
theorem c9_stored_id_drops_final_char (fileLines : List String) :
    (∀ s, s ∈ loadFileWithListOfSnpsToIgnore fileLines ↔
      ∃ x, x ∈ fileLines ∧ s = pyDropLast x) ∧
    (∀ s, s ∈ loadFileWithListOfIndsToKeep fileLines ↔
      ∃ x, x ∈ fileLines ∧ s = pyDropLast x) ∧
    (∀ x : String, ¬ x = "" → ¬ pyDropLast x = x) := by
  refine ⟨fun s => ?_, fun s => ?_, pyDropLast_ne_self⟩
  · unfold loadFileWithListOfSnpsToIgnore
    rw [dedupFold_mem_iff]
    simp
  · unfold loadFileWithListOfIndsToKeep
    rw [dedupFold_mem_iff]
    simp

theorem c9_witness :
    ("rs" ∈ loadFileWithListOfSnpsToIgnore ["rs1\n", "rs2"]) ∧
      ¬ pyDropLast "rs2" = "rs2" :=
  ⟨((c9_stored_id_drops_final_char ["rs1\n", "rs2"]).1 "rs").mpr
      ⟨"rs2", by decide, by decide⟩,
   (c9_stored_id_drops_final_char ["rs1\n", "rs2"]).2.2 "rs2" (by decide)⟩

/-! ### Helper lemmas about the substring test -/

theorem startsList_self_append (x t : List Char) : startsList x (x ++ t) = true := by
  induction x with
  | nil => rfl
  | cons a as ih => simp [startsList, ih]

theorem startsList_append_right (x : List Char) :
    ∀ (h t : List Char), startsList x h = true → startsList x (h ++ t) = true := by
  induction x with
  | nil => intro h t _; rfl
  | cons a as ih =>
    intro h t hs
    cases h with
    | nil => simp [startsList] at hs
    | cons b bs =>
      simp only [startsList, Bool.and_eq_true] at hs
      simp only [List.cons_append, startsList, Bool.and_eq_true]
      exact ⟨hs.1, ih bs t hs.2⟩

theorem containsSub_of_startsList (x h : List Char) (hs : startsList x h = true) :
    containsSub x h = true := by
  cases h with
  | nil => exact hs
  | cons c rest => simp [containsSub, hs]

theorem containsSub_append_right (x : List Char) :
    ∀ (h t : List Char), containsSub x h = true → containsSub x (h ++ t) = true := by
  intro h
  induction h with
  | nil =>
    intro t hc
    cases x with
    | nil =>
      cases t with
      | nil => rfl
      | cons c rest => simp [containsSub, startsList]
    | cons a as => simp [containsSub, startsList] at hc
  | cons c rest ih =>
    intro t hc
    simp only [containsSub, Bool.or_eq_true] at hc
    simp only [List.cons_append, containsSub, Bool.or_eq_true]
    rcases hc with hc | hc
    · exact Or.inl (by simpa [List.cons_append] using startsList_append_right x (c :: rest) t hc)
    · exact Or.inr (ih t hc)

theorem string_append_ne_of_ne (a1 a2 : String) (hne : ¬ a1 = a2) :
    ¬ a2 ++ a2 = a1 ++ a1 := by
  intro h
  apply hne
  have hdata : a2.data ++ a2.data = a1.data ++ a1.data := by
    have := String.ext_iff.mp h
    simpa [String.data_append] using this
  have hlen : a2.data.length + a2.data.length = a1.data.length + a1.data.length := by
    have h2 := congrArg List.length hdata
    rwa [List.length_append, List.length_append] at h2
  exact (String.ext_iff.mpr (List.append_inj hdata (by omega)).1).symm

/-- C5: genotype-call encoding for every retained column: a call equal to
`a1+a1` yields the triple 1 0 0; otherwise a call containing both alleles as
substrings (permissive test) yields 0 1 0; otherwise a call equal to
`a2+a2` yields 0 0 1; anything else, missing-data sentinels included,
yields 0 0 0 without error; in particular AA with a1=A gives 1 0 0, AG
gives 0 1 0, GG gives 0 0 1 and the missing sentinel -- gives 0 0 0. -/
theorem c5_dosage_encoding :
    (∀ a1 a2 call : String,
      (call = a1 ++ a1 → encodeCall a1 a2 call = " 1 0 0") ∧
      (¬ call = a1 ++ a1 → pyIn a1 call = true → pyIn a2 call = true →
        encodeCall a1 a2 call = " 0 1 0") ∧
      (¬ call = a1 ++ a1 → ¬ (pyIn a1 call = true ∧ pyIn a2 call = true) →
        call = a2 ++ a2 → encodeCall a1 a2 call = " 0 0 1") ∧
      (¬ call = a1 ++ a1 → ¬ (pyIn a1 call = true ∧ pyIn a2 call = true) →
        ¬ call = a2 ++ a2 → encodeCall a1 a2 call = " 0 0 0")) ∧
    encodeCall "A" "G" "AA" = " 1 0 0" ∧
    encodeCall "A" "G" "AG" = " 0 1 0" ∧
    encodeCall "A" "G" "GG" = " 0 0 1" ∧
    encodeCall "A" "G" "--" = " 0 0 0" ∧
    convertDataRow 1 [] [] [11, 12]
        "rs1 A/G x 1000 t4 t5 t6 t7 t8 t9 t10 AA AG\n" =
      some "chr1 rs1 1000 A G 1 0 0 0 1 0" := by
  refine ⟨fun a1 a2 call => ?_, by decide, by decide, by decide, by decide, rfl⟩
  refine ⟨fun h1 => ?_, fun h1 h2 h3 => ?_, fun h1 h2 h4 => ?_, fun h1 h2 h4 => ?_⟩
  · simp [encodeCall, h1]
  · simp [encodeCall, h1, h2, h3]
  · simp only [encodeCall, Bool.and_eq_true, h1, if_false]
    rw [if_neg h2, if_pos h4]
  · simp only [encodeCall, Bool.and_eq_true, h1, if_false]
    rw [if_neg h2, if_neg h4]

theorem c5_witness :
    ("AA" = "A" ++ "A") ∧ encodeCall "A" "G" "AA" = " 1 0 0" :=
  ⟨by decide, (c5_dosage_encoding.1 "A" "G" "AA").1 (by decide)⟩

/-- C10: the heterozygous substring test runs before the homozygous-a2
equality test: whenever a1 differs from a2 but occurs inside a2 as a
substring, the call equal to `a2+a2` is encoded 0 1 0, never 0 0 1. -/
theorem c10_het_test_precedes_hom (a1 a2 : String) (hne : ¬ a1 = a2)
    (hsub : pyIn a1 a2 = true) :
    encodeCall a1 a2 (a2 ++ a2) = " 0 1 0" ∧
      ¬ encodeCall a1 a2 (a2 ++ a2) = " 0 0 1" := by
  have hdata : (a2 ++ a2).data = a2.data ++ a2.data := String.data_append a2 a2
  have h1 : pyIn a1 (a2 ++ a2) = true := by
    unfold pyIn
    rw [hdata]
    exact containsSub_append_right a1.data a2.data a2.data hsub
  have h2 : pyIn a2 (a2 ++ a2) = true := by
    unfold pyIn
    rw [hdata]
    exact containsSub_of_startsList a2.data (a2.data ++ a2.data)
      (startsList_self_append a2.data a2.data)
  have henc : encodeCall a1 a2 (a2 ++ a2) = " 0 1 0" := by
    unfold encodeCall
    rw [if_neg (string_append_ne_of_ne a1 a2 hne), if_pos (by rw [h1, h2]; rfl)]
  exact ⟨henc, by rw [henc]; decide⟩

theorem c10_witness :
    (¬ "A" = "AG") ∧ pyIn "A" "AG" = true ∧
      encodeCall "A" "AG" ("AG" ++ "AG") = " 0 1 0" :=
  ⟨by decide, by decide, (c10_het_test_precedes_hom "A" "AG" (by decide) (by decide)).1⟩

/-! ### Helper lemmas for the coordinate-override loader (C2) -/

theorem dictHasKey_append_single (d : List (String × String)) (k0 v k : String) :
    dictHasKey (d ++ [(k0, v)]) k = (dictHasKey d k || (k0 == k)) := by
  simp [dictHasKey, List.any_append]

theorem bedKeys_cons (ign : List String) (line : String) (rest : List String) :
    bedKeys ign (line :: rest) =
      (if (pySplit (pyDropLast line)).getD 3 "" ∈ ign then bedKeys ign rest
       else (pySplit (pyDropLast line)).getD 3 "" :: bedKeys ign rest) := by
  unfold bedKeys
  rw [List.map_cons, List.filter_cons]
  by_cases hk : (pySplit (pyDropLast line)).getD 3 "" ∈ ign
  · rw [if_pos hk, if_neg (by rw [decide_eq_false (not_not_intro hk)]; decide)]
  · rw [if_neg hk, if_pos (by rw [decide_eq_true hk])]

theorem coordLoop_ok_iff (ign : List String) :
    ∀ (lines : List String) (d : List (String × String)),
      isOkE (getNewSnpCoordinatesLoop ign lines d) = true ↔
        ((bedKeys ign lines).Nodup ∧ ∀ k ∈ bedKeys ign lines, dictHasKey d k = false) := by
  intro lines
  induction lines with
  | nil =>
    intro d
    simp [getNewSnpCoordinatesLoop, isOkE, bedKeys]
  | cons line rest ih =>
    intro d
    rw [bedKeys_cons]
    by_cases hk : (pySplit (pyDropLast line)).getD 3 "" ∈ ign
    · rw [if_pos hk]
      simp only [getNewSnpCoordinatesLoop, if_pos hk]
      exact ih d
    · rw [if_neg hk]
      by_cases hd : dictHasKey d ((pySplit (pyDropLast line)).getD 3 "") = true
      · simp only [getNewSnpCoordinatesLoop, if_neg hk, hd, if_true]
        constructor
        · intro h; exact absurd h (by simp [isOkE])
        · rintro ⟨-, hall⟩
          have := hall _ (List.mem_cons_self _ _)
          rw [hd] at this
          exact absurd this (by simp)
      · have hdf : dictHasKey d ((pySplit (pyDropLast line)).getD 3 "") = false :=
          Bool.eq_false_iff.mpr hd
        simp only [getNewSnpCoordinatesLoop, if_neg hk, hdf, Bool.false_eq_true, if_false]
        rw [ih]
        constructor
        · rintro ⟨hnd, hall⟩
          have hnotmem : (pySplit (pyDropLast line)).getD 3 "" ∉ bedKeys ign rest := by
            intro hmem
            have := hall _ hmem
            rw [dictHasKey_append_single] at this
            simp at this
          refine ⟨List.nodup_cons.mpr ⟨hnotmem, hnd⟩, ?_⟩
          intro k hkmem
          rcases List.mem_cons.mp hkmem with h | h
          · rw [h]; exact hdf
          · have := hall _ h
            rw [dictHasKey_append_single] at this
            exact (Bool.or_eq_false_iff.mp this).1
        · rintro ⟨hnd, hall⟩
          have hnotmem := (List.nodup_cons.mp hnd).1
          refine ⟨(List.nodup_cons.mp hnd).2, ?_⟩
          intro k hkmem
          rw [dictHasKey_append_single, Bool.or_eq_false_iff]
          refine ⟨hall _ (List.mem_cons_of_mem _ hkmem), ?_⟩
          rw [beq_eq_false_iff_ne]
          intro heq
          rw [← heq] at hkmem
          exact hnotmem hkmem

/-- C2 as frozen is refuted here: the marker `rs1` appears on two lines of
the coordinate-override file, yet because `rs1` is in the exclusion list
both lines are skipped before the duplicate check, loading succeeds and the
whole run completes and writes output. -/
theorem c2_counterexample :
    pySplit (pyDropLast "c1 0 100 rs1\n") = ["c1", "0", "100", "rs1"] ∧
    pySplit (pyDropLast "c1 0 200 rs1\n") = ["c1", "0", "200", "rs1"] ∧
    getNewSnpCoordinates ["c1 0 100 rs1\n", "c1 0 200 rs1\n"] ["rs1"] = Except.ok [] ∧
    mainLines (fun _ => ["h0 h1 h2 h3 h4 h5 h6 h7 h8 h9 h10\n"]) [1] ["rs1\n"]
        ["c1 0 100 rs1\n", "c1 0 200 rs1\n"] [] =
      Except.ok ["chr id coord a1 a2"] :=
  ⟨by decide, by decide, rfl, rfl⟩

/-- C2 amended: for every coordinate-override file in which some marker
identifier that is NOT in the SNP-exclusion list appears on two or more
lines, loading fails fatally with the redundant-SNP (DuplicateKey) error
and the whole run aborts before any output is written; duplicates whose
marker is excluded are skipped and do not trigger the error. -/
theorem c2_duplicate_key_aborts (coordLines snpIgnoreLines indsLines : List String)
    (inputs : Nat → List String) (lChrs : List Nat)
    (hdup : ¬ (bedKeys (loadFileWithListOfSnpsToIgnore snpIgnoreLines) coordLines).Nodup) :
    isOkE (getNewSnpCoordinates coordLines
        (loadFileWithListOfSnpsToIgnore snpIgnoreLines)) = false ∧
      isOkE (mainLines inputs lChrs snpIgnoreLines coordLines indsLines) = false := by
  have hko : isOkE (getNewSnpCoordinates coordLines
      (loadFileWithListOfSnpsToIgnore snpIgnoreLines)) = false := by
    rw [Bool.eq_false_iff]
    intro hok
    exact hdup ((coordLoop_ok_iff _ coordLines []).mp hok).1
  refine ⟨hko, ?_⟩
  simp only [mainLines]
  rcases hres : getNewSnpCoordinates coordLines
      (loadFileWithListOfSnpsToIgnore snpIgnoreLines) with e | dmap
  · simp [isOkE]
  · rw [hres] at hko
    simp [isOkE] at hko

theorem c2_witness :
    (¬ (bedKeys (loadFileWithListOfSnpsToIgnore [])
        ["c1 0 100 rs1\n", "c1 0 200 rs1\n"]).Nodup) ∧
      isOkE (getNewSnpCoordinates ["c1 0 100 rs1\n", "c1 0 200 rs1\n"]
        (loadFileWithListOfSnpsToIgnore [])) = false ∧
      isOkE (mainLines (fun _ => []) [1] [] ["c1 0 100 rs1\n", "c1 0 200 rs1\n"] []) = false :=
  ⟨by decide,
   (c2_duplicate_key_aborts ["c1 0 100 rs1\n", "c1 0 200 rs1\n"] [] [] (fun _ => []) [1]
      (by decide)).1,
   (c2_duplicate_key_aborts ["c1 0 100 rs1\n", "c1 0 200 rs1\n"] [] [] (fun _ => []) [1]
      (by decide)).2⟩

/-! ### Helper lemmas about the row-building folds (C4, C6, C3) -/

theorem foldl_append_out (g : Nat → String) :
    ∀ (l : List Nat) (s₁ s₂ : String),
      l.foldl (fun t i => t ++ g i) (s₁ ++ s₂) = s₁ ++ l.foldl (fun t i => t ++ g i) s₂ := by
  intro l
  induction l with
  | nil => intro s₁ s₂; rfl
  | cons i is ih =>
    intro s₁ s₂
    simp only [List.foldl_cons]
    rw [String.append_assoc]
    exact ih s₁ (s₂ ++ g i)

theorem dataFold_body (kIdx : List Nat) (a1 a2 : String) (toks : List String) :
    (fun (t : String) (i : Nat) =>
      if i ∈ kIdx then t ++ encodeCall a1 a2 (toks.getD i "") else t) =
    (fun (t : String) (i : Nat) =>
      t ++ (if i ∈ kIdx then encodeCall a1 a2 (toks.getD i "") else "")) := by
  funext t i
  by_cases h : i ∈ kIdx
  · rw [if_pos h, if_pos h]
  · rw [if_neg h, if_neg h, String.append_empty]

theorem headerFold_body (kIdx : List Nat) (toks : List String) :
    (fun (txt : String) (i : Nat) =>
      if i ∈ kIdx then txt ++ " " ++ toks.getD i "" else txt) =
    (fun (txt : String) (i : Nat) =>
      txt ++ (if i ∈ kIdx then " " ++ toks.getD i "" else "")) := by
  funext txt i
  by_cases h : i ∈ kIdx
  · rw [if_pos h, if_pos h, String.append_assoc]
  · rw [if_neg h, if_neg h, String.append_empty]

theorem convertDataRow_eq (chrNb : Nat) (ign : List String)
    (d : List (String × String)) (kIdx : List Nat) (line : String)
    (hin : (pySplit (pyDropLast line)).getD 0 "" ∉ ign) :
    convertDataRow chrNb ign d kIdx line =
      some ("chr" ++ toString chrNb ++ " " ++ (pySplit (pyDropLast line)).getD 0 "" ++ " " ++
        (if dictHasKey d ((pySplit (pyDropLast line)).getD 0 "") then
          dictGet d ((pySplit (pyDropLast line)).getD 0 "")
         else (pySplit (pyDropLast line)).getD 3 "") ++
        rowSuffix kIdx (pySplit (pyDropLast line))) := by
  simp only [convertDataRow, if_neg hin]
  congr 1
  rw [dataFold_body kIdx ((pySplitSlash ((pySplit (pyDropLast line)).getD 1 "")).getD 0 "")
    ((pySplitSlash ((pySplit (pyDropLast line)).getD 1 "")).getD 1 "") (pySplit (pyDropLast line))]
  conv_lhs =>
    rw [show ("chr" ++ toString chrNb ++ " " ++ (pySplit (pyDropLast line)).getD 0 "" ++ " " ++
        (if dictHasKey d ((pySplit (pyDropLast line)).getD 0 "") then
          dictGet d ((pySplit (pyDropLast line)).getD 0 "")
         else (pySplit (pyDropLast line)).getD 3 "") ++ " " ++
        (pySplitSlash ((pySplit (pyDropLast line)).getD 1 "")).getD 0 "" ++ " " ++
        (pySplitSlash ((pySplit (pyDropLast line)).getD 1 "")).getD 1 "") =
      ("chr" ++ toString chrNb ++ " " ++ (pySplit (pyDropLast line)).getD 0 "" ++ " " ++
        (if dictHasKey d ((pySplit (pyDropLast line)).getD 0 "") then
          dictGet d ((pySplit (pyDropLast line)).getD 0 "")
         else (pySplit (pyDropLast line)).getD 3 "") ++ " " ++
        (pySplitSlash ((pySplit (pyDropLast line)).getD 1 "")).getD 0 "" ++ " " ++
        (pySplitSlash ((pySplit (pyDropLast line)).getD 1 "")).getD 1 "") ++ ""
      from (String.append_empty _).symm]
    rw [foldl_append_out (fun i =>
        if i ∈ kIdx then
          encodeCall ((pySplitSlash ((pySplit (pyDropLast line)).getD 1 "")).getD 0 "")
            ((pySplitSlash ((pySplit (pyDropLast line)).getD 1 "")).getD 1 "")
            ((pySplit (pyDropLast line)).getD i "")
        else "")]
  simp only [rowSuffix]
  simp only [String.append_assoc]

/-- C4: in every emitted data row the coordinate column (third column of the
row) equals the override value whenever the marker id is a key of the
coordinate-override mapping, and otherwise equals the row's own coordinate
field (input token index 3) unchanged. -/
theorem c4_coordinate_column (chrNb : Nat) (ign : List String)
    (d : List (String × String)) (kIdx : List Nat) (line : String)
    (hin : markerOf line ∉ ign) :
    (dictHasKey d (markerOf line) = true →
      convertDataRow chrNb ign d kIdx line =
        some ("chr" ++ toString chrNb ++ " " ++ markerOf line ++ " " ++
          dictGet d (markerOf line) ++ rowSuffix kIdx (pySplit (pyDropLast line)))) ∧
    (dictHasKey d (markerOf line) = false →
      convertDataRow chrNb ign d kIdx line =
        some ("chr" ++ toString chrNb ++ " " ++ markerOf line ++ " " ++
          (pySplit (pyDropLast line)).getD 3 "" ++
          rowSuffix kIdx (pySplit (pyDropLast line)))) := by
  have heq := convertDataRow_eq chrNb ign d kIdx line (by simpa only [markerOf] using hin)
  constructor
  · intro hkey
    simp only [markerOf] at hkey ⊢
    rw [heq, if_pos hkey]
  · intro hkey
    simp only [markerOf] at hkey ⊢
    rw [heq, if_neg (by rw [hkey]; exact Bool.false_ne_true)]

theorem c4_witness :
    (markerOf "rs1 A/G x 1000 t4 t5 t6 t7 t8 t9 t10 AA AG\n" ∉ ["rs9"]) ∧
      dictHasKey [("rs1", "999")] (markerOf "rs1 A/G x 1000 t4 t5 t6 t7 t8 t9 t10 AA AG\n")
        = true ∧
      convertDataRow 1 ["rs9"] [("rs1", "999")] [11, 12]
          "rs1 A/G x 1000 t4 t5 t6 t7 t8 t9 t10 AA AG\n" =
        some ("chr" ++ toString 1 ++ " " ++
          markerOf "rs1 A/G x 1000 t4 t5 t6 t7 t8 t9 t10 AA AG\n" ++ " " ++
          dictGet [("rs1", "999")] (markerOf "rs1 A/G x 1000 t4 t5 t6 t7 t8 t9 t10 AA AG\n") ++
          rowSuffix [11, 12] (pySplit (pyDropLast "rs1 A/G x 1000 t4 t5 t6 t7 t8 t9 t10 AA AG\n"))) :=
  ⟨by decide, by decide,
   (c4_coordinate_column 1 ["rs9"] [("rs1", "999")] [11, 12]
      "rs1 A/G x 1000 t4 t5 t6 t7 t8 t9 t10 AA AG\n" (by decide)).1 (by decide)⟩

theorem filterMap_of_none (f : String → Option String) (q : String → Bool) :
    ∀ l : List String, (∀ x ∈ l, q x = false → f x = none) →
      (l.filter q).filterMap f = l.filterMap f := by
  intro l
  induction l with
  | nil => intro h; rfl
  | cons x xs ih =>
    intro h
    by_cases hq : q x = true
    · rw [List.filter_cons, if_pos hq, List.filterMap_cons, List.filterMap_cons]
      cases hfx : f x
      · exact ih fun y hy => h y (List.mem_cons_of_mem x hy)
      · rw [ih fun y hy => h y (List.mem_cons_of_mem x hy)]
    · have hqf : q x = false := Bool.eq_false_iff.mpr hq
      rw [List.filter_cons, if_neg (by rw [hqf]; exact Bool.false_ne_true),
        List.filterMap_cons, h x (List.mem_cons_self x xs) hqf]
      exact ih fun y hy => h y (List.mem_cons_of_mem x hy)

/-- C6: for every marker identifier in the exclusion set no data row for
that marker reaches the output on any chromosome: the converter maps such
rows to nothing, and deleting those rows from the input leaves the whole
converted output unchanged. -/
theorem c6_excluded_marker_no_row (chrNb : Nat) (ign : List String)
    (d : List (String × String)) (lIndsToKeep : List String)
    (fileLines : List String) (isFirstFile : Bool) (m : String) (hm : m ∈ ign) :
    (∀ (kIdx : List Nat) (line : String), markerOf line = m →
      convertDataRow chrNb ign d kIdx line = none) ∧
    convertHapMapToImpute chrNb ign d lIndsToKeep fileLines isFirstFile =
      convertHapMapToImpute chrNb ign d lIndsToKeep
        (fileLines.headD "" :: fileLines.tail.filter (fun l => !(markerOf l == m)))
        isFirstFile := by
  have hnone : ∀ (kIdx : List Nat) (line : String), markerOf line = m →
      convertDataRow chrNb ign d kIdx line = none := by
    intro kIdx line hline
    unfold markerOf at hline
    simp only [convertDataRow, if_pos (hline ▸ hm)]
  refine ⟨hnone, ?_⟩
  simp only [convertHapMapToImpute, List.headD_cons, List.tail_cons]
  congr 1
  refine (filterMap_of_none _ _ fileLines.tail ?_).symm
  intro x _ hqx
  apply hnone
  have : (markerOf x == m) = true := by
    cases hbe : (markerOf x == m)
    · rw [hbe] at hqx; exact absurd hqx (by decide)
    · rfl
  exact eq_of_beq this

theorem c6_witness :
    ("rs1" ∈ ["rs1"]) ∧
      convertDataRow 1 ["rs1"] [] [] "rs1 A/G x 1000 t4 t5 t6 t7 t8 t9 t10 AA\n" = none ∧
      convertHapMapToImpute 1 ["rs1"] [] []
          ["h0 h1 h2 h3 h4 h5 h6 h7 h8 h9 h10 IND1\n",
           "rs1 A/G x 1000 t4 t5 t6 t7 t8 t9 t10 AA\n",
           "rs2 C/T x 2000 t4 t5 t6 t7 t8 t9 t10 CC\n"] true =
        convertHapMapToImpute 1 ["rs1"] [] []
          (["h0 h1 h2 h3 h4 h5 h6 h7 h8 h9 h10 IND1\n",
            "rs1 A/G x 1000 t4 t5 t6 t7 t8 t9 t10 AA\n",
            "rs2 C/T x 2000 t4 t5 t6 t7 t8 t9 t10 CC\n"].headD "" ::
            ["h0 h1 h2 h3 h4 h5 h6 h7 h8 h9 h10 IND1\n",
             "rs1 A/G x 1000 t4 t5 t6 t7 t8 t9 t10 AA\n",
             "rs2 C/T x 2000 t4 t5 t6 t7 t8 t9 t10 CC\n"].tail.filter
              (fun l => !(markerOf l == "rs1")))
          true :=
  ⟨by decide,
   (c6_excluded_marker_no_row 1 ["rs1"] [] []
      ["h0 h1 h2 h3 h4 h5 h6 h7 h8 h9 h10 IND1\n"] true "rs1" (by decide)).1 []
      "rs1 A/G x 1000 t4 t5 t6 t7 t8 t9 t10 AA\n" (by decide),
   (c6_excluded_marker_no_row 1 ["rs1"] [] []
      ["h0 h1 h2 h3 h4 h5 h6 h7 h8 h9 h10 IND1\n",
       "rs1 A/G x 1000 t4 t5 t6 t7 t8 t9 t10 AA\n",
       "rs2 C/T x 2000 t4 t5 t6 t7 t8 t9 t10 CC\n"] true "rs1" (by decide)).2⟩

/-! ### Helper lemmas for the header-column characterization (C7) -/

theorem drop_getD_cons (l : List String) :
    ∀ a : Nat, a < l.length → l.drop a = l.getD a "" :: l.drop (a + 1) := by
  induction l with
  | nil => intro a ha; simp at ha
  | cons x xs ih =>
    intro a ha
    cases a with
    | zero => simp
    | succ a =>
      simp only [List.drop_succ_cons, List.getD_cons_succ]
      exact ih a (by simpa using ha)

theorem filter_congr_own {α : Type} (p q : α → Bool) :
    ∀ l : List α, (∀ a ∈ l, p a = q a) → l.filter p = l.filter q := by
  intro l
  induction l with
  | nil => intro _; rfl
  | cons x xs ih =>
    intro h
    rw [List.filter_cons, List.filter_cons, h x (List.mem_cons_self x xs),
      ih fun a ha => h a (List.mem_cons_of_mem x ha)]

theorem headerFold_cond_congr (toks incl : List String) (kIdx : List Nat) :
    ∀ (l : List Nat) (s : String),
      (∀ i ∈ l, (i ∈ kIdx) ↔ (toks.getD i "" ∈ incl)) →
      l.foldl (fun txt i => if i ∈ kIdx then txt ++ " " ++ toks.getD i "" else txt) s =
        l.foldl (fun txt i => if toks.getD i "" ∈ incl then txt ++ " " ++ toks.getD i "" else txt)
          s := by
  intro l
  induction l with
  | nil => intro s _; rfl
  | cons i is ih =>
    intro s h
    simp only [List.foldl_cons]
    have hiff := h i (List.mem_cons_self i is)
    by_cases hc : toks.getD i "" ∈ incl
    · rw [if_pos (hiff.mpr hc), if_pos hc]
      exact ih _ fun j hj => h j (List.mem_cons_of_mem i hj)
    · rw [if_neg (fun hk => hc (hiff.mp hk)), if_neg hc]
      exact ih _ fun j hj => h j (List.mem_cons_of_mem i hj)

theorem rangeFold_filter_bridge (incl : List String) :
    ∀ (n a : Nat) (toks : List String) (s : String), a + n = toks.length →
      (List.range' a n).foldl
          (fun txt i => if toks.getD i "" ∈ incl then txt ++ " " ++ toks.getD i "" else txt) s =
        ((toks.drop a).filter (fun w => decide (w ∈ incl))).foldl
          (fun t w => t ++ " " ++ w) s := by
  intro n
  induction n with
  | zero =>
    intro a toks s ha
    rw [show a = toks.length by omega, List.drop_length]
    rfl
  | succ n ih =>
    intro a toks s ha
    have hlt : a < toks.length := by omega
    rw [List.range'_succ, drop_getD_cons toks a hlt, List.filter_cons]
    by_cases hw : toks.getD a "" ∈ incl
    · rw [if_pos (decide_eq_true hw)]
      simp only [List.foldl_cons]
      rw [if_pos hw]
      exact ih (a + 1) toks _ (by omega)
    · rw [if_neg (by rw [decide_eq_false hw]; exact Bool.false_ne_true)]
      simp only [List.foldl_cons]
      rw [if_neg hw]
      exact ih (a + 1) toks s (by omega)

/-- C7: with an inclusion list given, the individual columns of the output
header are exactly the input header's individual tokens (index 11 onward)
that belong to the inclusion set, in their original header order; the
retained columns depend only on the membership of the inclusion set, not on
the order of its entries. -/
theorem c7_header_inds_original_order (lToks incl : List String) :
    headerTxt lToks (keptColIdx lToks incl) =
      appendEachWithSpace "chr id coord a1 a2"
        ((lToks.drop 11).filter (fun w => decide (w ∈ incl))) ∧
    ∀ incl' : List String, (∀ x, x ∈ incl ↔ x ∈ incl') →
      keptColIdx lToks incl = keptColIdx lToks incl' := by
  constructor
  · unfold headerTxt appendEachWithSpace
    rw [headerFold_cond_congr lToks incl (keptColIdx lToks incl) _ _
      (fun i hi => by
        unfold keptColIdx
        rw [List.mem_filter]
        constructor
        · exact fun hmem => of_decide_eq_true hmem.2
        · exact fun h => ⟨hi, decide_eq_true h⟩)]
    rcases Nat.le_total 11 lToks.length with hle | hlt
    · exact rangeFold_filter_bridge incl (lToks.length - 11) 11 lToks _ (by omega)
    · rw [show lToks.length - 11 = 0 by omega,
        List.drop_eq_nil_of_le (by omega)]
      rfl
  · intro incl' hiff
    unfold keptColIdx
    exact filter_congr_own _ _ _
      (fun i _ => decide_eq_decide.mpr (hiff (lToks.getD i "")))

theorem c7_witness :
    headerTxt (pySplit (pyRstrip "h0 h1 h2 h3 h4 h5 h6 h7 h8 h9 h10 IND1 IND2\n"))
        (keptColIdx (pySplit (pyRstrip "h0 h1 h2 h3 h4 h5 h6 h7 h8 h9 h10 IND1 IND2\n"))
          ["IND2", "IND1"]) =
      appendEachWithSpace "chr id coord a1 a2"
        (((pySplit (pyRstrip "h0 h1 h2 h3 h4 h5 h6 h7 h8 h9 h10 IND1 IND2\n")).drop 11).filter
          (fun w => decide (w ∈ ["IND2", "IND1"]))) ∧
      keptColIdx (pySplit (pyRstrip "h0 h1 h2 h3 h4 h5 h6 h7 h8 h9 h10 IND1 IND2\n"))
          ["IND2", "IND1"] =
        keptColIdx (pySplit (pyRstrip "h0 h1 h2 h3 h4 h5 h6 h7 h8 h9 h10 IND1 IND2\n"))
          ["IND1", "IND2"] :=
  ⟨(c7_header_inds_original_order
      (pySplit (pyRstrip "h0 h1 h2 h3 h4 h5 h6 h7 h8 h9 h10 IND1 IND2\n"))
      ["IND2", "IND1"]).1,
   (c7_header_inds_original_order
      (pySplit (pyRstrip "h0 h1 h2 h3 h4 h5 h6 h7 h8 h9 h10 IND1 IND2\n"))
      ["IND2", "IND1"]).2 ["IND1", "IND2"]
      (fun x => by
        simp only [List.mem_cons, List.not_mem_nil, or_false]
        exact Or.comm)⟩

/-! ### Helper lemmas: a data line never looks like the header line (C3) -/

theorem digitChar_ne_space (m : Nat) : Nat.digitChar m ≠ ' ' :=
  match m with
  | 0 => by decide
  | 1 => by decide
  | 2 => by decide
  | 3 => by decide
  | 4 => by decide
  | 5 => by decide
  | 6 => by decide
  | 7 => by decide
  | 8 => by decide
  | 9 => by decide
  | 10 => by decide
  | 11 => by decide
  | 12 => by decide
  | 13 => by decide
  | 14 => by decide
  | 15 => by decide
  | (n + 16) => by
    have h : ∀ k : Nat, k < 16 → ¬ (n + 16 = k) := by omega
    simp only [Nat.digitChar, if_neg (h 0 (by norm_num)), if_neg (h 1 (by norm_num)),
      if_neg (h 2 (by norm_num)), if_neg (h 3 (by norm_num)), if_neg (h 4 (by norm_num)),
      if_neg (h 5 (by norm_num)), if_neg (h 6 (by norm_num)), if_neg (h 7 (by norm_num)),
      if_neg (h 8 (by norm_num)), if_neg (h 9 (by norm_num)), if_neg (h 10 (by norm_num)),
      if_neg (h 11 (by norm_num)), if_neg (h 12 (by norm_num)), if_neg (h 13 (by norm_num)),
      if_neg (h 14 (by norm_num)), if_neg (h 15 (by norm_num))]
    decide

theorem toDigitsCore_zero (b n : Nat) (ds : List Char) :
    Nat.toDigitsCore b 0 n ds = ds := rfl

theorem toDigitsCore_succ (b fuel n : Nat) (ds : List Char) :
    Nat.toDigitsCore b (fuel + 1) n ds =
      (if n / b = 0 then Nat.digitChar (n % b) :: ds
       else Nat.toDigitsCore b fuel (n / b) (Nat.digitChar (n % b) :: ds)) := rfl

theorem mem_toDigitsCore (b : Nat) :
    ∀ (fuel n : Nat) (ds : List Char) (c : Char),
      c ∈ Nat.toDigitsCore b fuel n ds → (∃ m, c = Nat.digitChar m) ∨ c ∈ ds := by
  intro fuel
  induction fuel with
  | zero => intro n ds c h; rw [toDigitsCore_zero] at h; exact Or.inr h
  | succ fuel ih =>
    intro n ds c h
    rw [toDigitsCore_succ] at h
    by_cases hb : n / b = 0
    · rw [if_pos hb] at h
      rcases List.mem_cons.mp h with h2 | h2
      · exact Or.inl ⟨n % b, h2⟩
      · exact Or.inr h2
    · rw [if_neg hb] at h
      rcases ih (n / b) (Nat.digitChar (n % b) :: ds) c h with h2 | h2
      · exact Or.inl h2
      · rcases List.mem_cons.mp h2 with h3 | h3
        · exact Or.inl ⟨n % b, h3⟩
        · exact Or.inr h3

theorem toDigitsCore_ne_nil (b : Nat) :
    ∀ (fuel n : Nat) (ds : List Char), ds ≠ [] ∨ 0 < fuel →
      Nat.toDigitsCore b fuel n ds ≠ [] := by
  intro fuel
  induction fuel with
  | zero =>
    intro n ds h
    rw [toDigitsCore_zero]
    rcases h with h | h
    · exact h
    · omega
  | succ fuel ih =>
    intro n ds _
    rw [toDigitsCore_succ]
    by_cases hb : n / b = 0
    · rw [if_pos hb]; exact List.cons_ne_nil _ _
    · rw [if_neg hb]
      exact ih (n / b) (Nat.digitChar (n % b) :: ds) (Or.inl (List.cons_ne_nil _ _))

theorem repr_data_shape (n : Nat) :
    ∃ c t, (Nat.repr n).data = c :: t ∧ c ≠ ' ' := by
  have hd : (Nat.repr n).data = Nat.toDigits 10 n := rfl
  rcases hlist : Nat.toDigits 10 n with _ | ⟨c, t⟩
  · exact absurd hlist (toDigitsCore_ne_nil 10 (n + 1) n [] (Or.inr (Nat.succ_pos n)))
  · refine ⟨c, t, by rw [hd, hlist], ?_⟩
    have hmem : c ∈ Nat.toDigits 10 n := by rw [hlist]; exact List.mem_cons_self c t
    rcases mem_toDigitsCore 10 (n + 1) n [] c hmem with ⟨m, hm⟩ | h
    · rw [hm]; exact digitChar_ne_space m
    · simp at h

theorem isHeaderLine_of_append (s : String) :
    isHeaderLine ("chr id coord a1 a2" ++ s) = true := by
  unfold isHeaderLine
  rw [String.data_append, List.take_append_of_le_length (by decide)]
  decide

theorem isHeaderLine_chrNum (chrNb : Nat) (s : String) :
    isHeaderLine ("chr" ++ (toString chrNb ++ s)) = false := by
  obtain ⟨c, t, hdata, hne⟩ := repr_data_shape chrNb
  unfold isHeaderLine
  rw [String.data_append, String.data_append]
  rw [show ("chr" : String).data = ['c', 'h', 'r'] from rfl]
  rw [show (toString chrNb).data = c :: t from hdata]
  have h4 : (['c', 'h', 'r'] ++ ((c :: t) ++ s.data)).take 4 = ['c', 'h', 'r', c] := by
    simp [List.cons_append, List.take_succ_cons]
  rw [h4, beq_eq_false_iff_ne]
  intro hlist
  apply hne
  simpa using hlist

theorem headerTxt_eq_append (toks : List String) (kIdx : List Nat) :
    headerTxt toks kIdx =
      "chr id coord a1 a2" ++
        (List.range' 11 (toks.length - 11)).foldl
          (fun t i => t ++ (if i ∈ kIdx then " " ++ toks.getD i "" else "")) "" := by
  unfold headerTxt
  rw [headerFold_body kIdx toks]
  conv_lhs =>
    rw [show ("chr id coord a1 a2" : String) = "chr id coord a1 a2" ++ "" from
      (String.append_empty _).symm]
    rw [foldl_append_out (fun i => if i ∈ kIdx then " " ++ toks.getD i "" else "")]

theorem isHeaderLine_headerTxt (toks : List String) (kIdx : List Nat) :
    isHeaderLine (headerTxt toks kIdx) = true := by
  rw [headerTxt_eq_append]
  exact isHeaderLine_of_append _

theorem convertDataRow_not_header (chrNb : Nat) (ign : List String)
    (d : List (String × String)) (kIdx : List Nat) (line txt : String)
    (h : convertDataRow chrNb ign d kIdx line = some txt) :
    isHeaderLine txt = false := by
  by_cases hin : (pySplit (pyDropLast line)).getD 0 "" ∈ ign
  · rw [show convertDataRow chrNb ign d kIdx line = none by
      simp only [convertDataRow, if_pos hin]] at h
    exact absurd h (by simp)
  · rw [convertDataRow_eq chrNb ign d kIdx line hin] at h
    have htxt := (Option.some.inj h).symm
    rw [htxt]
    simp only [String.append_assoc]
    exact isHeaderLine_chrNum chrNb _

theorem filterMap_rows_countP (chrNb : Nat) (ign : List String)
    (d : List (String × String)) (kIdx : List Nat) (rows : List String) :
    (rows.filterMap (convertDataRow chrNb ign d kIdx)).countP isHeaderLine = 0 := by
  rw [List.countP_eq_zero]
  intro a ha
  rcases List.mem_filterMap.mp ha with ⟨x, _, hfx⟩
  rw [convertDataRow_not_header chrNb ign d kIdx x a hfx]
  exact Bool.false_ne_true

theorem convert_countP_false (chrNb : Nat) (ign : List String)
    (d : List (String × String)) (keepInds fileLines : List String) :
    (convertHapMapToImpute chrNb ign d keepInds fileLines false).countP isHeaderLine = 0 := by
  simp only [convertHapMapToImpute]
  rw [if_neg Bool.false_ne_true, List.nil_append]
  exact filterMap_rows_countP chrNb ign d _ fileLines.tail

theorem convert_countP_true (chrNb : Nat) (ign : List String)
    (d : List (String × String)) (keepInds fileLines : List String) :
    (convertHapMapToImpute chrNb ign d keepInds fileLines true).countP isHeaderLine = 1 := by
  simp only [convertHapMapToImpute]
  rw [if_pos trivial, List.singleton_append, List.countP_cons, filterMap_rows_countP,
    isHeaderLine_headerTxt]
  decide

theorem mainLoop_false_countP (inputs : Nat → List String) (ign : List String)
    (d : List (String × String)) (keepInds : List String) :
    ∀ lChrs : List Nat,
      (mainLoop inputs ign d keepInds lChrs false).countP isHeaderLine = 0 := by
  intro lChrs
  induction lChrs with
  | nil => rfl
  | cons c rest ih =>
    simp only [mainLoop]
    rw [List.countP_append, convert_countP_false, ih]

/-- C3: for every run over a nonempty caller-supplied chromosome list that
completes successfully, the output stream contains exactly one header line:
the header is emitted with the first chromosome only and suppressed for all
subsequent chromosomes. -/
theorem c3_exactly_one_header (inputs : Nat → List String) (lChrs : List Nat)
    (snpIgnoreLines coordLines indsLines : List String) (out : List String)
    (hne : ¬ lChrs = [])
    (hok : mainLines inputs lChrs snpIgnoreLines coordLines indsLines = Except.ok out) :
    out.countP isHeaderLine = 1 := by
  rcases lChrs with _ | ⟨c, rest⟩
  · exact absurd rfl hne
  · simp only [mainLines] at hok
    rcases hres : getNewSnpCoordinates coordLines
        (loadFileWithListOfSnpsToIgnore snpIgnoreLines) with e | dmap
    · rw [hres] at hok
      exact absurd hok (by simp)
    · rw [hres] at hok
      have hout := Except.ok.inj hok
      rw [← hout]
      simp only [mainLoop]
      rw [List.countP_append, convert_countP_true, mainLoop_false_countP]

theorem c3_witness :
    (¬ ([1, 2] : List Nat) = []) ∧
      List.countP isHeaderLine ["chr id coord a1 a2 IND1"] = 1 :=
  ⟨by decide,
   c3_exactly_one_header (fun _ => ["h0 h1 h2 h3 h4 h5 h6 h7 h8 h9 h10 IND1\n"]) [1, 2]
     [] [] ["IND1\n"] ["chr id coord a1 a2 IND1"] (by decide) (by rfl)⟩
